import Mathlib

/-
Verification of the pupil-detection core of `pipeline/utils/eye_tracking.py`
(class `PupilTracker`): the per-contour scorer, the seven-criterion candidate
selector `get_pupil_from_contours`, and the frame-by-frame loop `track`.

Shallow embedding conventions:
* Grayscale pixel values are rationals; all derived metrics are reals
  (the Python code works in floating point; we idealize to exact reals).
* External library services (`cv2.VideoCapture`, `cvtColor`, `GaussianBlur`,
  `threshold`, `findContours`, `fitEllipse`) are modelled as data supplied
  with each frame: a `FrameData` carries the decode result, the gray image,
  the contour list together with each contour's fitted ellipse, and whether
  the `q` key (the cancellation signal read through `cv2.waitKey`) was
  observed during that iteration.
* Code that can raise is modelled with `Except`: `KeyError` on a missing
  parameter, the pandas `KeyError('conditions')` that the no-detection
  diagnostics of `get_pupil_from_contours` raise when zero contours were
  scored (so the `results` dict never got its `'conditions'` entry), and
  `PipelineException('Tracking aborted')` on cancellation.
-/

namespace EyeTracking

/-- Result of `cv2.fitEllipse` for one contour (external service):
center `(x, y)`, the two axis lengths `size[0]`, `size[1]`, and the rotation
angle in degrees. -/
structure EllipseFit where
  x : ℝ
  y : ℝ
  ax0 : ℝ
  ax1 : ℝ
  angle : ℝ

/-- One contour produced by `cv2.findContours`: its point list (as in
`contour.squeeze().astype(float)`) and the ellipse fitted to it. -/
structure ContourData where
  pts : List (ℝ × ℝ)
  fit : EllipseFit

/-- `PupilTracker.goodness_of_fit`: for every contour point, translate to the
ellipse center, rotate by minus the (degree) angle, evaluate
`(posx/size[0])^2 + (posy/size[1])^2 - 0.25`, square, sum over the points and
return `sqrt(err / len(contour))`. -/
noncomputable def goodness_of_fit (contour : List (ℝ × ℝ)) (e : EllipseFit) : ℝ :=
  let a := e.angle * Real.pi / 180
  let err := (contour.map (fun q =>
    let posx := (q.1 - e.x) * Real.cos (-a) - (q.2 - e.y) * Real.sin (-a)
    let posy := (q.1 - e.x) * Real.sin (-a) + (q.2 - e.y) * Real.cos (-a)
    ((posx / e.ax0) ^ 2 + (posy / e.ax1) ^ 2 - 0.25) ^ 2)).sum
  Real.sqrt (err / contour.length)

/-- Persistent cross-frame state: the previous accepted detection's
normalized center and major radius (`old_center`, `old_r`). -/
structure TrackState where
  old_center : Option (ℝ × ℝ)
  old_r : Option ℝ

/-- The seven threshold values read at the top of `get_pupil_from_contours`. -/
structure SelParams where
  ratio_thres : ℝ
  area_threshold : ℝ
  error_threshold : ℝ
  min_contour : ℝ
  margin : ℝ
  speed_thres : ℝ
  dr_thres : ℝ

/-- The per-contour metrics computed inside the loop of
`get_pupil_from_contours` for a contour that passed the two structural
checks.  `shape = (rows, cols)` is `small_gray.shape`. -/
noncomputable def scoreOf (shape : ℕ × ℕ) (old_center : Option (ℝ × ℝ))
    (old_r : Option ℝ) (c : ContourData) : ℝ × ℝ × ℝ × ℝ × ℝ × ℝ × ℝ × ℝ :=
  let ratio := max c.fit.ax0 c.fit.ax1 / min c.fit.ax0 c.fit.ax1
  let area := c.fit.ax0 * c.fit.ax1 / ((shape.1 : ℝ) * (shape.2 : ℝ))
  let rmse := goodness_of_fit c.pts c.fit
  let cx := c.fit.x / (shape.2 : ℝ)
  let cy := c.fit.y / (shape.1 : ℝ)
  let r := max c.fit.ax0 c.fit.ax1
  let dr := match old_r with
    | none => 0
    | some orad => |r - orad| / orad
  let dx := match old_center with
    | none => 0
    | some oc => Real.sqrt ((cx - oc.1) ^ 2 + (cy - oc.2) ^ 2)
  (ratio, area, rmse, cx, cy, r, dx, dr)

namespace Score

/-- `ratio = max(axes)/min(axes)` of a scored contour. -/
noncomputable def ratio (shape : ℕ × ℕ) (oc : Option (ℝ × ℝ)) (orad : Option ℝ)
    (c : ContourData) : ℝ := (scoreOf shape oc orad c).1

/-- `area = np.prod(ellipse[1]) / np.prod(small_gray.shape)`. -/
noncomputable def area (shape : ℕ × ℕ) (oc : Option (ℝ × ℝ)) (orad : Option ℝ)
    (c : ContourData) : ℝ := (scoreOf shape oc orad c).2.1

/-- `curr_err = goodness_of_fit(cnt, ellipse)`. -/
noncomputable def rmse (shape : ℕ × ℕ) (oc : Option (ℝ × ℝ)) (orad : Option ℝ)
    (c : ContourData) : ℝ := (scoreOf shape oc orad c).2.2.1

/-- Normalized x coordinate `x / small_gray.shape[1]`. -/
noncomputable def cx (shape : ℕ × ℕ) (oc : Option (ℝ × ℝ)) (orad : Option ℝ)
    (c : ContourData) : ℝ := (scoreOf shape oc orad c).2.2.2.1

/-- Normalized y coordinate `y / small_gray.shape[0]`. -/
noncomputable def cy (shape : ℕ × ℕ) (oc : Option (ℝ × ℝ)) (orad : Option ℝ)
    (c : ContourData) : ℝ := (scoreOf shape oc orad c).2.2.2.2.1

/-- `r = max(axes)`. -/
noncomputable def rad (shape : ℕ × ℕ) (oc : Option (ℝ × ℝ)) (orad : Option ℝ)
    (c : ContourData) : ℝ := (scoreOf shape oc orad c).2.2.2.2.2.1

/-- `dx = 0 if old_center is None else euclidean distance`. -/
noncomputable def dx (shape : ℕ × ℕ) (oc : Option (ℝ × ℝ)) (orad : Option ℝ)
    (c : ContourData) : ℝ := (scoreOf shape oc orad c).2.2.2.2.2.2.1

/-- `dr = 0 if old_r is None else abs(r - old_r)/old_r`. -/
noncomputable def dr (shape : ℕ × ℕ) (oc : Option (ℝ × ℝ)) (orad : Option ℝ)
    (c : ContourData) : ℝ := (scoreOf shape oc orad c).2.2.2.2.2.2.2

end Score

/-- `matching_conditions`: the number (0..7) of pass/fail criteria satisfied
by a scored contour. -/
noncomputable def condCount (P : SelParams) (shape : ℕ × ℕ)
    (oc : Option (ℝ × ℝ)) (orad : Option ℝ) (c : ContourData) : ℕ :=
  (if Score.ratio shape oc orad c ≤ P.ratio_thres then 1 else 0)
  + (if Score.area shape oc orad c ≥ P.area_threshold then 1 else 0)
  + (if Score.rmse shape oc orad c < P.error_threshold then 1 else 0)
  + (if P.margin < Score.cx shape oc orad c ∧ Score.cx shape oc orad c < 1 - P.margin
      then 1 else 0)
  + (if P.margin < Score.cy shape oc orad c ∧ Score.cy shape oc orad c < 1 - P.margin
      then 1 else 0)
  + (if Score.dx shape oc orad c < P.speed_thres then 1 else 0)
  + (if Score.dr shape oc orad c < P.dr_thres then 1 else 0)

/-- The two structural rejection tests applied before a contour is scored:
`len(contours[j]) < min_contour` (skip) and `min(axes) == 0` (skip). -/
def rejected (P : SelParams) (c : ContourData) : Prop :=
  (c.pts.length : ℝ) < P.min_contour ∨ min c.fit.ax0 c.fit.ax1 = 0

/-- The selection loop of `get_pupil_from_contours`.  The accumulator is the
current best `(err, contour)` pair; `none` plays the role of
`err = np.inf, best_contour = None`.  A scored contour replaces the best one
exactly when `curr_err < err and matching_conditions == 7`. -/
noncomputable def gpFold (P : SelParams) (shape : ℕ × ℕ) (oc : Option (ℝ × ℝ))
    (orad : Option ℝ) : List ContourData → Option (ℝ × ContourData) →
    Option (ℝ × ContourData)
  | [], best => best
  | c :: cs, best =>
      if (c.pts.length : ℝ) < P.min_contour then gpFold P shape oc orad cs best
      else if min c.fit.ax0 c.fit.ax1 = 0 then gpFold P shape oc orad cs best
      else
        match best with
        | none =>
            if condCount P shape oc orad c = 7 then
              gpFold P shape oc orad cs (some (Score.rmse shape oc orad c, c))
            else gpFold P shape oc orad cs none
        | some (e, b) =>
            if Score.rmse shape oc orad c < e ∧ condCount P shape oc orad c = 7 then
              gpFold P shape oc orad cs (some (Score.rmse shape oc orad c, c))
            else gpFold P shape oc orad cs (some (e, b))

/-- The number of contours the loop of `get_pupil_from_contours` actually
scores (those surviving both structural checks): the `results` dict receives
its `'conditions'` entry exactly when this count is nonzero. -/
noncomputable def numScored (P : SelParams) : List ContourData → ℕ
  | [] => 0
  | c :: cs =>
      if (c.pts.length : ℝ) < P.min_contour then numScored P cs
      else if min c.fit.ax0 c.fit.ax1 = 0 then numScored P cs
      else numScored P cs + 1

/-- Errors a run can terminate with: a missing configuration key
(`KeyError` on `self._params[...]`), the pandas `KeyError('conditions')`
raised by the no-detection diagnostics (`pd.DataFrame(results)['conditions']`
indexes a column that exists only when at least one contour was scored), or
the cancellation `PipelineException('Tracking aborted')`. -/
inductive TrackErr
  | configError
  | condKeyError
  | aborted
deriving DecidableEq

/-- The configuration record `self._params`.  Every recognized option is
optional at the type level; `none` models an absent key. -/
structure Params where
  ratio_threshold : Option ℝ
  relative_area_threshold : Option ℝ
  error_threshold : Option ℝ
  min_contour_len : Option ℝ
  margin : Option ℝ
  speed_threshold : Option ℝ
  dr_threshold : Option ℝ
  perc_weight : Option ℝ
  perc_high : Option ℝ
  perc_low : Option ℝ
  contrast_threshold : Option ℝ

/-- `self._params[key]`: raises `KeyError` when the key is absent. -/
def getp (o : Option ℝ) : Except TrackErr ℝ :=
  match o with
  | none => .error .configError
  | some v => .ok v

/-- `get_pupil_from_contours`: read the seven thresholds (raising on a
missing key), then run the selection loop.  Returns the winning contour (the
fitted ellipse is the `fit` field of that contour).  When no contour passes
all seven criteria (`best_ellipse is None`), the diagnostics block runs:
`pd.DataFrame(results)['conditions']` raises `KeyError('conditions')` if
zero contours were scored (the column was never created), and otherwise
only prints, so the function returns `none`. -/
noncomputable def get_pupil_from_contours (p : Params) (shape : ℕ × ℕ)
    (old_center : Option (ℝ × ℝ)) (old_r : Option ℝ)
    (contours : List ContourData) : Except TrackErr (Option ContourData) := do
  let rt ← getp p.ratio_threshold
  let a_t ← getp p.relative_area_threshold
  let et ← getp p.error_threshold
  let mc ← getp p.min_contour_len
  let mg ← getp p.margin
  let sp ← getp p.speed_threshold
  let dt ← getp p.dr_threshold
  match gpFold ⟨rt, a_t, et, mc, mg, sp, dt⟩ shape old_center old_r contours none with
  | some b => pure (some b.2)
  | none =>
      if numScored ⟨rt, a_t, et, mc, mg, sp, dt⟩ contours = 0 then
        .error .condKeyError
      else pure none

/-- One decoded frame, after `cv2.cvtColor(..., COLOR_BGR2GRAY)`: the gray
image as rows of pixel values, together with the contour list the external
`GaussianBlur`/`threshold`/`findContours` pipeline produces for its ROI
crop. -/
structure FrameImage where
  gray : List (List ℚ)
  contours : List ContourData

/-- One `cap.read()` step of the frame source plus the cancellation signal:
`decoded = none` models `ret == False` (decode failure or exhausted stream);
`cancel` models `cv2.waitKey(1) & 0xFF == ord('q')` during that iteration. -/
structure FrameData where
  decoded : Option FrameImage
  cancel : Bool

/-- `np.std` flattens a 2D array: the sample mean of the flattened pixels. -/
def meanQ (xs : List ℚ) : ℚ := xs.sum / xs.length

/-- Population variance of a list of rationals, as computed by `np.std`
before the square root. -/
def varQ (xs : List ℚ) : ℚ := ((xs.map (fun v => (v - meanQ xs) ^ 2)).sum) / xs.length

/-- `img_std = np.std(gray)` for a 2D image. -/
noncomputable def stdOf (g : List (List ℚ)) : ℝ := Real.sqrt ((varQ g.flatten : ℚ) : ℝ)

/-- The region of interest `eye_roi = [[r0, r1], [c0, c1]]`: a row range and
a column range. -/
structure ROI where
  r0 : ℕ
  r1 : ℕ
  c0 : ℕ
  c1 : ℕ

/-- `small_gray = gray[slice(*eye_roi[0]), slice(*eye_roi[1])]`. -/
def cropImg (g : List (List ℚ)) (roi : ROI) : List (List ℚ) :=
  ((g.drop roi.r0).take (roi.r1 - roi.r0)).map
    (fun row => (row.drop roi.c0).take (roi.c1 - roi.c0))

/-- `small_gray.shape`: `(number of rows, number of columns)`. -/
def subShape (g : List (List ℚ)) (roi : ROI) : ℕ × ℕ :=
  ((cropImg g roi).length, ((cropImg g roi).headD []).length)

/-- `shape[::-1]` of a 2-tuple. -/
def shapeRev (s : ℕ × ℕ) : ℕ × ℕ := (s.2, s.1)

/-- One output element of `traces`: `dict(frame_id=..)` on decode failure,
`dict(frame_id=.., frame_intensity=..)` on low contrast or no detection, and
the full success record otherwise (`rotated_rect` is the winning contour's
`fit`, carried inside `contour`). -/
inductive FrameRecord
  | decodeFail (frame_id : ℕ)
  | failure (frame_id : ℕ) (frame_intensity : ℝ)
  | success (frame_id : ℕ) (frame_intensity : ℝ) (center : ℝ × ℝ) (major_r : ℝ)
      (contour : ContourData)

/-- The `frame_id` of a record (present in all three shapes). -/
def FrameRecord.frameId : FrameRecord → ℕ
  | .decodeFail i => i
  | .failure i _ => i
  | .success i _ _ _ _ => i

/-- The body of one `while` iteration of `track` up to (but excluding) the
`waitKey` cancellation test: returns the record appended for this frame, the
next `TrackState`, and whether control reached the cancellation test (the
two `continue` paths jump over it). -/
noncomputable def processFrame (p : Params) (contrast_low : ℝ) (roi : ROI)
    (frId : ℕ) (st : TrackState) (f : FrameData) :
    Except TrackErr (FrameRecord × TrackState × Bool) :=
  match f.decoded with
  | none => .ok (.decodeFail frId, st, false)
  | some fr =>
      let istd := stdOf fr.gray
      if istd < contrast_low then .ok (.failure frId istd, st, false)
      else
        let shape := subShape fr.gray roi
        match get_pupil_from_contours p shape st.old_center st.old_r fr.contours with
        | .error e => .error e
        | .ok none => .ok (.failure frId istd, ⟨none, none⟩, true)
        | .ok (some c) =>
            let eye_center := ((roi.c0 : ℝ) + c.fit.x, (roi.r0 : ℝ) + c.fit.y)
            let nc := (c.fit.x / ((shapeRev shape).1 : ℝ), c.fit.y / ((shapeRev shape).2 : ℝ))
            .ok (.success frId istd eye_center (max c.fit.ax0 c.fit.ax1) c,
              ⟨some nc, some (max c.fit.ax0 c.fit.ax1)⟩, true)

/-- The `while cap.isOpened()` loop of `track`.  The capture is assumed to
have opened successfully (`isOpened` stays true for the whole run in OpenCV,
also after the stream is exhausted), so the loop runs until
`fr_count >= no_frames`; the fuel argument is `no_frames - fr_count`.
Reading past the end of the frame stream (`fs = []`) yields `ret == False`,
hence a `frame_id`-only record, exactly like a per-frame decode failure.
The cancellation signal raises `PipelineException('Tracking aborted')`,
which discards the accumulated trace. -/
noncomputable def trackLoop (p : Params) (contrast_low : ℝ) (roi : ROI) :
    ℕ → List FrameData → ℕ → TrackState → List FrameRecord →
    Except TrackErr (List FrameRecord)
  | 0, _, _, _, acc => .ok acc
  | fuel + 1, fs, fr_count, st, acc =>
      match fs with
      | [] =>
          trackLoop p contrast_low roi fuel [] (fr_count + 1) st
            (acc ++ [.decodeFail (fr_count + 1)])
      | f :: rest =>
          match processFrame p contrast_low roi (fr_count + 1) st f with
          | .error e => .error e
          | .ok (rec, st', chk) =>
              if chk && f.cancel then .error .aborted
              else trackLoop p contrast_low roi fuel rest (fr_count + 1) st' (acc ++ [rec])

/-- `PupilTracker.track`: read the four loop-level options (raising
`KeyError` on a missing one), then run the loop from frame count 0 with both
continuity fields unset.  `no_frames` is the declared
`CAP_PROP_FRAME_COUNT`. -/
noncomputable def track (p : Params) (roi : ROI) (frames : List FrameData)
    (no_frames : ℕ) : Except TrackErr (List FrameRecord) := do
  let _cw ← getp p.perc_weight
  let _ph ← getp p.perc_high
  let _pl ← getp p.perc_low
  let cl ← getp p.contrast_threshold
  trackLoop p cl roi no_frames frames 0 ⟨none, none⟩ []

/-! Spec-side definitions, written from the specification's words, to be
compared with the definitions translated from the source. -/

/-- From the spec's selection rule: the candidate with the lowest key among a
list of keyed candidates, the earliest one winning ties (a later candidate
replaces the current choice only when strictly lower). -/
noncomputable def argminFirst : List (ℝ × ContourData) → Option (ℝ × ContourData)
  | [] => none
  | x :: xs =>
      match argminFirst xs with
      | none => some x
      | some y => if y.1 < x.1 then some y else some x

/-- From the spec's selection rule: the candidates that are actually scored
(neither structural rejection applies) and whose pass-count against the 7
criteria equals 7, in scan order, each paired with its `rmse`. -/
noncomputable def passing (P : SelParams) (shape : ℕ × ℕ) (oc : Option (ℝ × ℝ))
    (orad : Option ℝ) : List ContourData → List (ℝ × ContourData)
  | [] => []
  | c :: cs =>
      if ¬ ((c.pts.length : ℝ) < P.min_contour) ∧ ¬ (min c.fit.ax0 c.fit.ax1 = 0)
          ∧ condCount P shape oc orad c = 7 then
        (Score.rmse shape oc orad c, c) :: passing P shape oc orad cs
      else passing P shape oc orad cs

/-- Combine two optional keyed candidates, keeping the left one unless the
right one is strictly lower (helper for relating `gpFold` to
`argminFirst`). -/
noncomputable def mergeBest : Option (ℝ × ContourData) → Option (ℝ × ContourData) →
    Option (ℝ × ContourData)
  | none, b => b
  | some a, none => some a
  | some a, some b => if b.1 < a.1 then some b else some a

/-- From the spec's words for `rmse`: the value of the normalized implicit
ellipse equation `(x'/a)^2 + (y'/b)^2 - 0.25` at a contour point transformed
into the ellipse's rotated frame. -/
noncomputable def implicitVal (q : ℝ × ℝ) (e : EllipseFit) : ℝ :=
  let a := e.angle * Real.pi / 180
  let posx := (q.1 - e.x) * Real.cos (-a) - (q.2 - e.y) * Real.sin (-a)
  let posy := (q.1 - e.x) * Real.sin (-a) + (q.2 - e.y) * Real.cos (-a)
  (posx / e.ax0) ^ 2 + (posy / e.ax1) ^ 2 - 0.25

/-- A point lies exactly on the boundary of the fitted ellipse: in the
rotated frame its normalized coordinates (against the semi-axes, half of the
returned axis lengths) satisfy the ellipse equation. -/
noncomputable def onEllipseBoundary (q : ℝ × ℝ) (e : EllipseFit) : Prop :=
  let a := e.angle * Real.pi / 180
  let posx := (q.1 - e.x) * Real.cos (-a) - (q.2 - e.y) * Real.sin (-a)
  let posy := (q.1 - e.x) * Real.sin (-a) + (q.2 - e.y) * Real.cos (-a)
  (posx / (e.ax0 / 2)) ^ 2 + (posy / (e.ax1 / 2)) ^ 2 = 1

/-! Concrete instances used to exercise the definitions. -/

/-- A fully populated configuration. -/
noncomputable def pFull : Params :=
  ⟨some 2, some (1/2), some (1/10), some 4, some (1/4), some (1/10), some (1/10),
   some (1/2), some 99, some 1, some (1/2)⟩

/-- A configuration with every key absent. -/
def pEmpty : Params :=
  ⟨none, none, none, none, none, none, none, none, none, none, none⟩

/-- `pFull` without `ratio_threshold` (a scorer-level key). -/
noncomputable def pNoRatioThr : Params :=
  ⟨none, some (1/2), some (1/10), some 4, some (1/4), some (1/10), some (1/10),
   some (1/2), some 99, some 1, some (1/2)⟩

/-- `pFull` without `perc_weight` (a loop-level key). -/
noncomputable def pNoWeight : Params :=
  ⟨some 2, some (1/2), some (1/10), some 4, some (1/4), some (1/10), some (1/10),
   none, some 99, some 1, some (1/2)⟩

/-- A 2×2 gray image with pixel values `2,2,0,0`: mean 1, variance 1,
standard deviation 1. -/
def grayHi : List (List ℚ) := [[2, 2], [0, 0]]

/-- A constant 2×2 gray image: standard deviation 0. -/
def grayLo : List (List ℚ) := [[0, 0], [0, 0]]

/-- The full-image ROI for a 2×2 frame. -/
def roiFull : ROI := ⟨0, 2, 0, 2⟩

/-- An ROI selecting only the first row of a 2×2 frame. -/
def roiTop : ROI := ⟨0, 1, 0, 2⟩

/-- A circle of diameter 2 centered at `(1,1)`, unrotated. -/
def fitCirc : EllipseFit := ⟨1, 1, 2, 2, 0⟩

/-- Four contour points lying exactly on the boundary of `fitCirc`. -/
def ptsCirc : List (ℝ × ℝ) := [(2, 1), (0, 1), (1, 2), (1, 0)]

/-- The contour of `ptsCirc` with its fit. -/
def cCirc : ContourData := ⟨ptsCirc, fitCirc⟩

/-- A decoded high-contrast frame with no contours. -/
def fEmpty : FrameData := ⟨some ⟨grayHi, []⟩, false⟩

/-- A decoded low-contrast frame. -/
def fLow : FrameData := ⟨some ⟨grayLo, []⟩, false⟩

/-- A decoded high-contrast frame whose single contour is `cCirc`. -/
def fDetect : FrameData := ⟨some ⟨grayHi, [cCirc]⟩, false⟩

/-- Five collinear contour points (enough for the length check and for the
external ellipse fit). -/
def ptsBad : List (ℝ × ℝ) := [(0, 0), (1, 0), (2, 0), (3, 0), (4, 0)]

/-- A fit whose axis ratio `8/2 = 4` fails criterion 1 against
`ratio_threshold = 2`. -/
def fitBad : EllipseFit := ⟨1, 1, 2, 8, 0⟩

/-- A contour that is scored (it survives both structural checks) but cannot
pass all 7 criteria, because its axis ratio is too large. -/
def cBad : ContourData := ⟨ptsBad, fitBad⟩

/-- A decoded high-contrast frame whose single contour is `cBad`: it is
scored, fails the criteria, and the frame yields no detection without
raising. -/
def fBad : FrameData := ⟨some ⟨grayHi, [cBad]⟩, false⟩

/-- The initial tracking state: both continuity fields unset. -/
def stNone : TrackState := ⟨none, none⟩

/-- One of the four options read at the top of `track` is absent. -/
def missingLoop (p : Params) : Prop :=
  p.perc_weight = none ∨ p.perc_high = none ∨ p.perc_low = none
  ∨ p.contrast_threshold = none

/-- The seven selector thresholds of `pFull`. -/
noncomputable def selF : SelParams := ⟨2, 1/2, 1/10, 4, 1/4, 1/10, 1/10⟩

/-! Theorems. -/

lemma mergeBest_none_right (a : Option (ℝ × ContourData)) : mergeBest a none = a := by
  cases a <;> rfl

lemma argminFirst_cons (x : ℝ × ContourData) (xs : List (ℝ × ContourData)) :
    argminFirst (x :: xs) = mergeBest (some x) (argminFirst xs) := by
  cases h : argminFirst xs <;> simp [argminFirst, mergeBest, h]

lemma mergeBest_assoc (a b c : Option (ℝ × ContourData)) :
    mergeBest (mergeBest a b) c = mergeBest a (mergeBest b c) := by
  rcases a with _ | a
  · rfl
  rcases b with _ | b
  · rfl
  rcases c with _ | c
  · rw [mergeBest_none_right, mergeBest_none_right]
  by_cases hba : b.1 < a.1 <;> by_cases hcb : c.1 < b.1 <;> by_cases hca : c.1 < a.1 <;>
    simp [mergeBest, hba, hcb, hca]
  all_goals exfalso
  all_goals linarith

lemma gpFold_eq_mergeBest (P : SelParams) (shape : ℕ × ℕ) (oc : Option (ℝ × ℝ))
    (orad : Option ℝ) (cs : List ContourData) (best : Option (ℝ × ContourData)) :
    gpFold P shape oc orad cs best
      = mergeBest best (argminFirst (passing P shape oc orad cs)) := by
  induction cs generalizing best with
  | nil => cases best <;> simp [gpFold, passing, argminFirst, mergeBest]
  | cons c cs ih =>
      by_cases h1 : (c.pts.length : ℝ) < P.min_contour
      · have hcond : ¬ (¬ ((c.pts.length : ℝ) < P.min_contour)
            ∧ ¬ (min c.fit.ax0 c.fit.ax1 = 0)
            ∧ condCount P shape oc orad c = 7) := fun h => h.1 h1
        rw [passing, if_neg hcond]
        cases best <;> · rw [gpFold, if_pos h1]; exact ih _
      · by_cases h2 : min c.fit.ax0 c.fit.ax1 = 0
        · have hcond : ¬ (¬ ((c.pts.length : ℝ) < P.min_contour)
              ∧ ¬ (min c.fit.ax0 c.fit.ax1 = 0)
              ∧ condCount P shape oc orad c = 7) := fun h => h.2.1 h2
          rw [passing, if_neg hcond]
          cases best <;> · rw [gpFold, if_neg h1, if_pos h2]; exact ih _
        · by_cases h3 : condCount P shape oc orad c = 7
          · have hcond : (¬ ((c.pts.length : ℝ) < P.min_contour)
                ∧ ¬ (min c.fit.ax0 c.fit.ax1 = 0)
                ∧ condCount P shape oc orad c = 7) := ⟨h1, h2, h3⟩
            rw [passing, if_pos hcond, argminFirst_cons]
            cases best with
            | none =>
                rw [gpFold, if_neg h1, if_neg h2]
                simp only [if_pos h3]
                rw [ih]
                rfl
            | some eb =>
                rcases eb with ⟨e, b⟩
                rw [gpFold, if_neg h1, if_neg h2]
                by_cases h4 : Score.rmse shape oc orad c < e
                · simp only [if_pos (And.intro h4 h3)]
                  rw [ih, ← mergeBest_assoc]
                  congr 1
                  simp [mergeBest, h4]
                · have hno : ¬ (Score.rmse shape oc orad c < e
                      ∧ condCount P shape oc orad c = 7) := fun h => h4 h.1
                  simp only [if_neg hno]
                  rw [ih, ← mergeBest_assoc]
                  congr 1
                  simp [mergeBest, h4]
          · have hcond : ¬ (¬ ((c.pts.length : ℝ) < P.min_contour)
                ∧ ¬ (min c.fit.ax0 c.fit.ax1 = 0)
                ∧ condCount P shape oc orad c = 7) := fun h => h3 h.2.2
            rw [passing, if_neg hcond]
            cases best with
            | none =>
                rw [gpFold, if_neg h1, if_neg h2]
                simp only [if_neg h3]
                exact ih _
            | some eb =>
                rcases eb with ⟨e, b⟩
                rw [gpFold, if_neg h1, if_neg h2]
                have hno : ¬ (Score.rmse shape oc orad c < e
                    ∧ condCount P shape oc orad c = 7) := fun h => h3 h.2
                simp only [if_neg hno]
                exact ih _

lemma argminFirst_mem (l : List (ℝ × ContourData)) (x : ℝ × ContourData)
    (h : argminFirst l = some x) : x ∈ l := by
  induction l with
  | nil => simp [argminFirst] at h
  | cons y ys ih =>
      rw [argminFirst_cons] at h
      cases hy : argminFirst ys with
      | none => rw [hy] at h; simp [mergeBest] at h; simp [h]
      | some z =>
          rw [hy] at h
          simp only [mergeBest] at h
          by_cases hz : z.1 < y.1
          · rw [if_pos hz] at h
            cases h
            exact List.mem_cons_of_mem _ (ih hy)
          · rw [if_neg hz] at h
            cases h
            exact List.mem_cons_self _ _

lemma argminFirst_eq_none (l : List (ℝ × ContourData)) :
    argminFirst l = none ↔ l = [] := by
  cases l with
  | nil => simp [argminFirst]
  | cons y ys =>
      rw [argminFirst_cons]
      cases hy : argminFirst ys with
      | none => simp [mergeBest]
      | some z =>
          simp only [mergeBest]
          by_cases hz : z.1 < y.1 <;> simp [hz]

lemma argminFirst_le (l : List (ℝ × ContourData)) :
    ∀ x, argminFirst l = some x → ∀ y ∈ l, x.1 ≤ y.1 := by
  induction l with
  | nil => intro x h; simp [argminFirst] at h
  | cons y ys ih =>
      intro x h w hw
      rw [argminFirst_cons] at h
      cases hy : argminFirst ys with
      | none =>
          have hys : ys = [] := (argminFirst_eq_none ys).mp hy
          subst hys
          rw [hy, mergeBest_none_right] at h
          cases h
          simp only [List.mem_singleton] at hw
          subst hw
          exact le_refl _
      | some z =>
          rw [hy] at h
          simp only [mergeBest] at h
          rcases List.mem_cons.mp hw with rfl | hw2
          · by_cases hz : z.1 < w.1
            · rw [if_pos hz] at h; cases h; exact le_of_lt hz
            · rw [if_neg hz] at h; cases h; exact le_refl _
          · by_cases hz : z.1 < y.1
            · rw [if_pos hz] at h; cases h; exact ih _ hy w hw2
            · rw [if_neg hz] at h; cases h
              have h2 := ih _ hy w hw2
              have h3 := not_lt.mp hz
              linarith

lemma passing_sound (P : SelParams) (shape : ℕ × ℕ) (oc : Option (ℝ × ℝ))
    (orad : Option ℝ) (cnts : List ContourData) (e : ℝ) (c : ContourData)
    (h : (e, c) ∈ passing P shape oc orad cnts) :
    condCount P shape oc orad c = 7 ∧ e = Score.rmse shape oc orad c := by
  induction cnts with
  | nil => simp [passing] at h
  | cons a as ih =>
      rw [passing] at h
      by_cases hcond : (¬ ((a.pts.length : ℝ) < P.min_contour)
          ∧ ¬ (min a.fit.ax0 a.fit.ax1 = 0) ∧ condCount P shape oc orad a = 7)
      · rw [if_pos hcond] at h
        rcases List.mem_cons.mp h with heq | h2
        · cases heq
          exact ⟨hcond.2.2, rfl⟩
        · exact ih h2
      · rw [if_neg hcond] at h
        exact ih h

/-- The selection loop started at `err = inf, best = None` computes exactly
the first-minimal `rmse` among the scored candidates with pass-count 7. -/
lemma gpFold_selects_argminFirst (P : SelParams) (shape : ℕ × ℕ)
    (oc : Option (ℝ × ℝ)) (orad : Option ℝ) (cnts : List ContourData) :
    gpFold P shape oc orad cnts none = argminFirst (passing P shape oc orad cnts) := by
  rw [gpFold_eq_mergeBest]
  rfl

lemma implicit_of_boundary (px py a b : ℝ) (ha : a ≠ 0) (hb : b ≠ 0)
    (h : (px / (a / 2)) ^ 2 + (py / (b / 2)) ^ 2 = 1) :
    (px / a) ^ 2 + (py / b) ^ 2 - 0.25 = 0 := by
  have e1 : (px / (a / 2)) ^ 2 = 4 * (px / a) ^ 2 := by
    field_simp
    ring
  have e2 : (py / (b / 2)) ^ 2 = 4 * (py / b) ^ 2 := by
    field_simp
    ring
  rw [e1, e2] at h
  norm_num
  linarith

/-- C7: for every contour and fitted ellipse with nonzero axes, the
goodness-of-fit value equals the square root of the mean over the contour
points of the squared normalized implicit ellipse equation
`(x'/a)^2 + (y'/b)^2 - 0.25` evaluated in the ellipse's rotated frame
(`implicitVal`), and it is `0` for a contour lying exactly on the ellipse
boundary. -/
theorem goodness_of_fit_is_rms_implicit (contour : List (ℝ × ℝ)) (e : EllipseFit)
    (h0 : e.ax0 ≠ 0) (h1 : e.ax1 ≠ 0) :
    goodness_of_fit contour e
      = Real.sqrt (((contour.map (fun q => (implicitVal q e) ^ 2)).sum) / contour.length)
    ∧ ((∀ q ∈ contour, onEllipseBoundary q e) → goodness_of_fit contour e = 0) := by
  constructor
  · rfl
  · intro hb
    have hsum : (contour.map (fun q => (implicitVal q e) ^ 2)).sum = 0 := by
      apply List.sum_eq_zero
      intro x hx
      obtain ⟨q, hq, rfl⟩ := List.mem_map.mp hx
      have hqb := hb q hq
      simp only [onEllipseBoundary] at hqb
      have hzero : implicitVal q e = 0 := by
        simp only [implicitVal]
        exact implicit_of_boundary _ _ _ _ h0 h1 hqb
      rw [hzero]
      ring
    have heq : goodness_of_fit contour e
        = Real.sqrt (((contour.map (fun q => (implicitVal q e) ^ 2)).sum) / contour.length) :=
      rfl
    rw [heq, hsum]
    simp

lemma get_pupil_eq (p : Params) (shape : ℕ × ℕ) (oc : Option (ℝ × ℝ))
    (orad : Option ℝ) (cnts : List ContourData) :
    get_pupil_from_contours p shape oc orad cnts =
      match p.ratio_threshold, p.relative_area_threshold, p.error_threshold,
          p.min_contour_len, p.margin, p.speed_threshold, p.dr_threshold with
      | some rt, some a_t, some et, some mc, some mg, some sp, some dt =>
          match gpFold ⟨rt, a_t, et, mc, mg, sp, dt⟩ shape oc orad cnts none with
          | some b => .ok (some b.2)
          | none =>
              if numScored ⟨rt, a_t, et, mc, mg, sp, dt⟩ cnts = 0 then
                .error .condKeyError
              else .ok none
      | _, _, _, _, _, _, _ => .error .configError := by
  rcases p with ⟨f1, f2, f3, f4, f5, f6, f7, f8, f9, f10, f11⟩
  cases f1 <;> cases f2 <;> cases f3 <;> cases f4 <;> cases f5 <;> cases f6 <;>
    cases f7 <;> rfl

lemma track_eq (p : Params) (roi : ROI) (frames : List FrameData) (n : ℕ) :
    track p roi frames n =
      match p.perc_weight, p.perc_high, p.perc_low, p.contrast_threshold with
      | some _, some _, some _, some cl => trackLoop p cl roi n frames 0 ⟨none, none⟩ []
      | _, _, _, _ => .error .configError := by
  rcases p with ⟨f1, f2, f3, f4, f5, f6, f7, f8, f9, f10, f11⟩
  cases f8 <;> cases f9 <;> cases f10 <;> cases f11 <;> rfl

lemma processFrame_decodeFail {p : Params} {cl : ℝ} {roi : ROI} {frId : ℕ}
    {st : TrackState} {f : FrameData} (hd : f.decoded = none) :
    processFrame p cl roi frId st f = .ok (.decodeFail frId, st, false) := by
  simp [processFrame, hd]

lemma processFrame_lowContrast {p : Params} {cl : ℝ} {roi : ROI} {frId : ℕ}
    {st : TrackState} {f : FrameData} (fr : FrameImage) (hd : f.decoded = some fr)
    (hlc : stdOf fr.gray < cl) :
    processFrame p cl roi frId st f = .ok (.failure frId (stdOf fr.gray), st, false) := by
  simp [processFrame, hd, if_pos hlc]

lemma processFrame_gp_err {p : Params} {cl : ℝ} {roi : ROI} {frId : ℕ}
    {st : TrackState} {f : FrameData} {e : TrackErr} (fr : FrameImage)
    (hd : f.decoded = some fr) (hlc : ¬ stdOf fr.gray < cl)
    (hg : get_pupil_from_contours p (subShape fr.gray roi) st.old_center st.old_r
      fr.contours = .error e) :
    processFrame p cl roi frId st f = .error e := by
  simp [processFrame, hd, if_neg hlc, hg]

lemma processFrame_noDetect {p : Params} {cl : ℝ} {roi : ROI} {frId : ℕ}
    {st : TrackState} {f : FrameData} (fr : FrameImage)
    (hd : f.decoded = some fr) (hlc : ¬ stdOf fr.gray < cl)
    (hg : get_pupil_from_contours p (subShape fr.gray roi) st.old_center st.old_r
      fr.contours = .ok none) :
    processFrame p cl roi frId st f = .ok (.failure frId (stdOf fr.gray), ⟨none, none⟩, true) := by
  simp [processFrame, hd, if_neg hlc, hg]

lemma processFrame_detect {p : Params} {cl : ℝ} {roi : ROI} {frId : ℕ}
    {st : TrackState} {f : FrameData} {c : ContourData} (fr : FrameImage)
    (hd : f.decoded = some fr) (hlc : ¬ stdOf fr.gray < cl)
    (hg : get_pupil_from_contours p (subShape fr.gray roi) st.old_center st.old_r
      fr.contours = .ok (some c)) :
    processFrame p cl roi frId st f
      = .ok (.success frId (stdOf fr.gray)
            ((roi.c0 : ℝ) + c.fit.x, (roi.r0 : ℝ) + c.fit.y) (max c.fit.ax0 c.fit.ax1) c,
          ⟨some (c.fit.x / ((shapeRev (subShape fr.gray roi)).1 : ℝ),
                c.fit.y / ((shapeRev (subShape fr.gray roi)).2 : ℝ)),
           some (max c.fit.ax0 c.fit.ax1)⟩, true) := by
  simp [processFrame, hd, if_neg hlc, hg]

lemma processFrame_frameId {p : Params} {cl : ℝ} {roi : ROI} {frId : ℕ}
    {st : TrackState} {f : FrameData} {rec : FrameRecord} {st' : TrackState}
    {chk : Bool} (h : processFrame p cl roi frId st f = .ok (rec, st', chk)) :
    rec.frameId = frId := by
  cases hd : f.decoded with
  | none =>
      rw [processFrame_decodeFail hd] at h
      cases h
      rfl
  | some fr =>
      by_cases hlc : stdOf fr.gray < cl
      · rw [processFrame_lowContrast fr hd hlc] at h
        cases h
        rfl
      · cases hg : get_pupil_from_contours p (subShape fr.gray roi) st.old_center
            st.old_r fr.contours with
        | error e =>
            rw [processFrame_gp_err fr hd hlc hg] at h
            cases h
        | ok r =>
            cases r with
            | none =>
                rw [processFrame_noDetect fr hd hlc hg] at h
                cases h
                rfl
            | some c =>
                rw [processFrame_detect fr hd hlc hg] at h
                cases h
                rfl

lemma decodeFail_range_succ (c n : ℕ) :
    (List.range (n + 1)).map (fun i => FrameRecord.decodeFail (c + i + 1))
      = FrameRecord.decodeFail (c + 1)
        :: (List.range n).map (fun i => FrameRecord.decodeFail (c + 1 + i + 1)) := by
  rw [List.range_succ_eq_map, List.map_cons, List.map_map]
  norm_num
  intro a _
  omega

lemma trackLoop_nil_pads (p : Params) (cl : ℝ) (roi : ROI) :
    ∀ (fuel c : ℕ) (st : TrackState) (acc : List FrameRecord),
    trackLoop p cl roi fuel [] c st acc
      = .ok (acc ++ (List.range fuel).map (fun i => FrameRecord.decodeFail (c + i + 1))) := by
  intro fuel
  induction fuel with
  | zero => intro c st acc; simp [trackLoop]
  | succ n ih =>
      intro c st acc
      simp only [trackLoop]
      rw [ih]
      congr 1
      rw [decodeFail_range_succ, List.append_assoc, List.singleton_append]

lemma trackLoop_ok_trace (p : Params) (cl : ℝ) (roi : ROI) :
    ∀ (fuel : ℕ) (fs : List FrameData) (c : ℕ) (st : TrackState)
      (acc tr : List FrameRecord),
    trackLoop p cl roi fuel fs c st acc = .ok tr →
    ∃ ext, tr = acc ++ ext ∧ ext.length = fuel
      ∧ ∀ i, i < fuel → (ext.get? i).map FrameRecord.frameId = some (c + i + 1) := by
  intro fuel
  induction fuel with
  | zero =>
      intro fs c st acc tr h
      simp only [trackLoop] at h
      cases h
      exact ⟨[], by simp, rfl, by intro i hi; omega⟩
  | succ n ih =>
      intro fs c st acc tr h
      have step : ∀ (rec : FrameRecord) (st2 : TrackState) (rest : List FrameData),
          rec.frameId = c + 1 →
          trackLoop p cl roi n rest (c + 1) st2 (acc ++ [rec]) = .ok tr →
          ∃ ext, tr = acc ++ ext ∧ ext.length = n + 1
            ∧ ∀ i, i < n + 1 → (ext.get? i).map FrameRecord.frameId = some (c + i + 1) := by
        intro rec st2 rest hid h2
        obtain ⟨ext, he, hl, hids⟩ := ih _ _ _ _ _ h2
        refine ⟨rec :: ext, ?_, ?_, ?_⟩
        · rw [he, List.append_assoc]
          rfl
        · simp [hl]
        · intro i hi
          cases i with
          | zero => simp [hid]
          | succ j =>
              have hj := hids j (by omega)
              simp only [List.get?_cons_succ]
              rw [hj]
              congr 2
              omega
      cases fs with
      | nil =>
          simp only [trackLoop] at h
          exact step (.decodeFail (c + 1)) st [] rfl h
      | cons f rest =>
          cases hp : processFrame p cl roi (c + 1) st f with
          | error e =>
              simp only [trackLoop, hp] at h
              cases h
          | ok out =>
              obtain ⟨rec, st2, chk⟩ := out
              simp only [trackLoop, hp] at h
              by_cases hc : (chk && f.cancel) = true
              · rw [if_pos hc] at h
                simp at h
              · rw [if_neg hc] at h
                exact step rec st2 rest (processFrame_frameId hp) h

lemma trackLoop_one_ok {p : Params} {cl : ℝ} {roi : ROI} {f : FrameData}
    {rec : FrameRecord} {st st' : TrackState}
    (hp : processFrame p cl roi 1 st f = .ok (rec, st', false)) :
    trackLoop p cl roi 1 [f] 0 st [] = .ok [rec] := by
  show trackLoop p cl roi (0 + 1) [f] 0 st [] = Except.ok [rec]
  simp only [trackLoop, Nat.zero_add, hp]
  simp [trackLoop]

lemma varQ_grayHi : varQ grayHi.flatten = 1 := by
  norm_num [varQ, meanQ, grayHi]

lemma stdOf_grayHi : stdOf grayHi = 1 := by
  simp only [stdOf, varQ_grayHi, Rat.cast_one, Real.sqrt_one]

lemma varQ_grayLo : varQ grayLo.flatten = 0 := by
  norm_num [varQ, meanQ, grayLo]

lemma stdOf_grayLo : stdOf grayLo = 0 := by
  simp only [stdOf, varQ_grayLo, Rat.cast_zero, Real.sqrt_zero]

lemma cropTop_eq : cropImg grayHi roiTop = [[2, 2]] := rfl

lemma stdOf_cropTop : stdOf (cropImg grayHi roiTop) = 0 := by
  have h : varQ (cropImg grayHi roiTop).flatten = 0 := by
    norm_num [varQ, meanQ, cropTop_eq]
  simp only [stdOf, h, Rat.cast_zero, Real.sqrt_zero]

lemma gp_empty_raises (shape : ℕ × ℕ) (oc : Option (ℝ × ℝ)) (orad : Option ℝ) :
    get_pupil_from_contours pFull shape oc orad [] = .error .condKeyError := rfl

lemma trackLoop_one_err {p : Params} {cl : ℝ} {roi : ROI} {f : FrameData}
    {e : TrackErr} {st : TrackState}
    (hp : processFrame p cl roi 1 st f = .error e) :
    trackLoop p cl roi 1 [f] 0 st [] = .error e := by
  show trackLoop p cl roi (0 + 1) [f] 0 st [] = Except.error e
  simp only [trackLoop, Nat.zero_add, hp]

lemma gof_circ : goodness_of_fit ptsCirc fitCirc = 0 := by
  norm_num [goodness_of_fit, ptsCirc, fitCirc, Real.cos_zero, Real.sin_zero,
    Real.sqrt_zero]

lemma cond_circ : condCount selF (2, 2) none none cCirc = 7 := by
  have hg : Score.rmse (2, 2) none none cCirc = 0 := by
    simp [Score.rmse, scoreOf, cCirc, gof_circ]
  simp only [condCount, hg]
  norm_num [Score.ratio, Score.area, Score.cx, Score.cy, Score.dx, Score.dr,
    scoreOf, cCirc, fitCirc, selF, max_self, min_self]

lemma gp_circ : get_pupil_from_contours pFull (2, 2) none none [cCirc] = .ok (some cCirc) := by
  have h4 : ¬ ((cCirc.pts.length : ℝ) < selF.min_contour) := by
    norm_num [cCirc, ptsCirc, selF]
  have hmin : ¬ (min cCirc.fit.ax0 cCirc.fit.ax1 = 0) := by
    norm_num [cCirc, fitCirc]
  have hfold : gpFold selF (2, 2) none none [cCirc] none
      = some (Score.rmse (2, 2) none none cCirc, cCirc) := by
    simp [gpFold, if_neg h4, if_neg hmin, cond_circ]
  have h : get_pupil_from_contours pFull (2, 2) none none [cCirc]
      = (match gpFold selF (2, 2) none none [cCirc] none with
         | some b => Except.ok (some b.2)
         | none =>
             if numScored selF [cCirc] = 0 then Except.error TrackErr.condKeyError
             else Except.ok none) := rfl
  rw [h, hfold]

lemma cond_cBad (shape : ℕ × ℕ) : condCount selF shape none none cBad ≠ 7 := by
  have hr : ¬ (Score.ratio shape none none cBad ≤ selF.ratio_thres) := by
    simp only [Score.ratio, scoreOf, cBad, fitBad, selF]
    rw [show max (2 : ℝ) 8 = 8 from max_eq_right (by norm_num),
      show min (2 : ℝ) 8 = 2 from min_eq_left (by norm_num)]
    norm_num
  simp only [condCount, if_neg hr]
  split_ifs <;> omega

lemma gpFold_cBad (shape : ℕ × ℕ) :
    gpFold selF shape none none [cBad] none = none := by
  have h4 : ¬ ((cBad.pts.length : ℝ) < selF.min_contour) := by
    norm_num [cBad, ptsBad, selF]
  have hmin : ¬ (min cBad.fit.ax0 cBad.fit.ax1 = 0) := by
    norm_num [cBad, fitBad]
  simp [gpFold, if_neg h4, if_neg hmin, cond_cBad shape]

lemma numScored_cBad : numScored selF [cBad] = 1 := by
  have h4 : ¬ ((cBad.pts.length : ℝ) < selF.min_contour) := by
    norm_num [cBad, ptsBad, selF]
  have hmin : ¬ (min cBad.fit.ax0 cBad.fit.ax1 = 0) := by
    norm_num [cBad, fitBad]
  simp [numScored, if_neg h4, if_neg hmin]

lemma gp_cBad (shape : ℕ × ℕ) :
    get_pupil_from_contours pFull shape none none [cBad] = .ok none := by
  have h : get_pupil_from_contours pFull shape none none [cBad]
      = (match gpFold selF shape none none [cBad] none with
         | some b => Except.ok (some b.2)
         | none =>
             if numScored selF [cBad] = 0 then Except.error TrackErr.condKeyError
             else Except.ok none) := rfl
  rw [h, gpFold_cBad shape, numScored_cBad]
  simp

lemma track_missingLoop (p : Params) (roi : ROI) (frames : List FrameData) (n : ℕ)
    (h : missingLoop p) : track p roi frames n = .error .configError := by
  rcases p with ⟨f1, f2, f3, f4, f5, f6, f7, f8, f9, f10, f11⟩
  simp only [missingLoop] at h
  rcases h with h | h | h | h
  · subst h; rfl
  · subst h; cases f8 <;> rfl
  · subst h; cases f8 <;> cases f9 <;> rfl
  · subst h; cases f8 <;> cases f9 <;> cases f10 <;> rfl

/-- C1 (counterexample): with the empty candidate sequence — no candidate at
all, so in particular none passing all 7 criteria — the selector does not
return `none`: the no-detection diagnostics raise `KeyError('conditions')`
(the `results` dict never received that key), and the run dies. -/
theorem selector_empty_counterexample :
    get_pupil_from_contours pFull (2, 2) none none [] = .error .condKeyError
    ∧ get_pupil_from_contours pFull (2, 2) none none [] ≠ .ok none := by
  have h0 : get_pupil_from_contours pFull (2, 2) none none []
      = .error .condKeyError := rfl
  refine ⟨h0, ?_⟩
  rw [h0]
  simp

/-- C1 (amended): the selection loop picks, among the scored candidates
whose pass-count against the 7 criteria equals 7 (`passing`, in scan order),
the one with the lowest `rmse`, the first such candidate winning ties
(`argminFirst`); a candidate passing only 6 of 7 criteria is never selected,
no matter how low its `rmse`.  When no candidate passes all 7 criteria,
`get_pupil_from_contours` returns `none` provided at least one candidate was
scored; with zero scored candidates it instead raises `KeyError('conditions')`
from the no-detection diagnostics. -/
theorem selection_rule_amended (P : SelParams) (shape : ℕ × ℕ)
    (oc : Option (ℝ × ℝ)) (orad : Option ℝ) (cnts : List ContourData) :
    gpFold P shape oc orad cnts none = argminFirst (passing P shape oc orad cnts)
    ∧ ∀ p : Params,
        p.ratio_threshold = some P.ratio_thres →
        p.relative_area_threshold = some P.area_threshold →
        p.error_threshold = some P.error_threshold →
        p.min_contour_len = some P.min_contour →
        p.margin = some P.margin →
        p.speed_threshold = some P.speed_thres →
        p.dr_threshold = some P.dr_thres →
        get_pupil_from_contours p shape oc orad cnts
          = match argminFirst (passing P shape oc orad cnts) with
            | some b => .ok (some b.2)
            | none =>
                if numScored P cnts = 0 then .error .condKeyError else .ok none := by
  refine ⟨gpFold_selects_argminFirst P shape oc orad cnts, ?_⟩
  intro p h1 h2 h3 h4 h5 h6 h7
  simp only [get_pupil_eq, h1, h2, h3, h4, h5, h6, h7]
  have hP : (⟨P.ratio_thres, P.area_threshold, P.error_threshold, P.min_contour,
      P.margin, P.speed_thres, P.dr_thres⟩ : SelParams) = P := rfl
  rw [hP, gpFold_selects_argminFirst]

/-- C3 (the code, evaluated at the claim's own failing input): a decoded
frame with adequate contrast whose thresholded ROI yields no contours makes
the run terminate with the pandas `KeyError('conditions')` raised by the
no-detection diagnostics — an exception that is neither cancellation nor
misconfiguration, contradicting the claim (and the code's own no-detection
design: `get_pupil_from_contours` is written to return `None, None` and
`track` handles `contour is None` by recording a failure and continuing). -/
theorem empty_candidate_frame_raises :
    track pFull roiFull [fEmpty] 1 = .error .condKeyError := by
  have hlc : ¬ stdOf grayHi < (1/2 : ℝ) := by
    rw [stdOf_grayHi]; norm_num
  have hg : get_pupil_from_contours pFull (subShape grayHi roiFull) none none []
      = .error .condKeyError := gp_empty_raises _ _ _
  have hp : processFrame pFull (1/2) roiFull 1 stNone fEmpty = .error .condKeyError :=
    processFrame_gp_err ⟨grayHi, []⟩ rfl hlc hg
  show trackLoop pFull (1/2) roiFull 1 [fEmpty] 0 stNone [] = .error .condKeyError
  exact trackLoop_one_err hp

/-- C4 (counterexample): with an immediately exhausted frame source and a
declared count of 2, the loop does not stop: the trace is padded with one
`frame_id`-only record per undelivered frame, so it is not empty as the
claim requires. -/
theorem exhaustion_pads_counterexample :
    track pFull roiFull [] 2 = .ok [FrameRecord.decodeFail 1, FrameRecord.decodeFail 2]
    ∧ ([FrameRecord.decodeFail 1, FrameRecord.decodeFail 2] : List FrameRecord) ≠ [] := by
  constructor
  · show trackLoop pFull (1/2) roiFull 2 [] 0 ⟨none, none⟩ []
        = .ok [FrameRecord.decodeFail 1, FrameRecord.decodeFail 2]
    rw [trackLoop_nil_pads]
    have h2 : List.range 2 = [0, 1] := rfl
    rw [h2]
    norm_num
  · simp

/-- C4 (amended): when the frame source is exhausted (no frames remain), the
loop keeps running until the declared frame count is reached, emitting one
`frame_id`-only decode-failure record per remaining frame — it pads the
trace instead of stopping. -/
theorem exhausted_stream_pads_decode_failures (p : Params) (cl : ℝ) (roi : ROI)
    (fuel c : ℕ) (st : TrackState) (acc : List FrameRecord) :
    trackLoop p cl roi fuel [] c st acc
      = .ok (acc ++ (List.range fuel).map (fun i => FrameRecord.decodeFail (c + i + 1))) :=
  trackLoop_nil_pads p cl roi fuel c st acc

/-- C5 (counterexample): a frame whose ROI crop is constant (sub-image
standard deviation 0, below the floor 1/2) is nevertheless not skipped,
because the pre-check uses the full-frame standard deviation (1 here): the
step reaches candidate extraction (its contour `cBad` is scored and fails
the criteria, third component `true`) and records the full-frame intensity
1, not the sub-image intensity. -/
theorem contrast_precheck_counterexample :
    stdOf (cropImg grayHi roiTop) < 1/2
    ∧ processFrame pFull (1/2) roiTop 1 stNone fBad
        = .ok (.failure 1 1, ⟨none, none⟩, true) := by
  constructor
  · rw [stdOf_cropTop]; norm_num
  · have hlc : ¬ stdOf grayHi < (1/2 : ℝ) := by
      rw [stdOf_grayHi]; norm_num
    have hg : get_pupil_from_contours pFull (subShape grayHi roiTop) none none [cBad]
        = .ok none := gp_cBad _
    have h : processFrame pFull (1/2) roiTop 1 stNone fBad
        = .ok (.failure 1 (stdOf grayHi), ⟨none, none⟩, true) :=
      processFrame_noDetect ⟨grayHi, [cBad]⟩ rfl hlc hg
    rw [stdOf_grayHi] at h
    exact h

/-- C5 (amended): the low-contrast pre-check compares the standard deviation
of the full grayscale frame — not of the ROI crop — against the configured
floor: below the floor the step emits the failure record carrying the
full-frame intensity and skips extraction (third component `false`);
otherwise candidate extraction is reached (or a missing scorer option
raises). -/
theorem contrast_precheck_uses_full_frame_std (p : Params) (cl : ℝ) (roi : ROI)
    (frId : ℕ) (st : TrackState) (f : FrameData) (fr : FrameImage)
    (hd : f.decoded = some fr) :
    (stdOf fr.gray < cl →
        processFrame p cl roi frId st f = .ok (.failure frId (stdOf fr.gray), st, false))
    ∧ (¬ stdOf fr.gray < cl →
        (∃ e, processFrame p cl roi frId st f = .error e)
        ∨ ∃ rec st', processFrame p cl roi frId st f = .ok (rec, st', true)) := by
  constructor
  · intro hlc
    exact processFrame_lowContrast fr hd hlc
  · intro hlc
    cases hg : get_pupil_from_contours p (subShape fr.gray roi) st.old_center
        st.old_r fr.contours with
    | error e => exact Or.inl ⟨e, processFrame_gp_err fr hd hlc hg⟩
    | ok r =>
        cases r with
        | none => exact Or.inr ⟨_, _, processFrame_noDetect fr hd hlc hg⟩
        | some c => exact Or.inr ⟨_, _, processFrame_detect fr hd hlc hg⟩

/-- C5 (witness for the amended theorem): a genuinely low-contrast frame is
skipped with the full-frame intensity recorded. -/
theorem contrast_precheck_witness :
    processFrame pFull (1/2) roiFull 1 stNone fLow = .ok (.failure 1 0, stNone, false) := by
  have h := (contrast_precheck_uses_full_frame_std pFull (1/2) roiFull 1 stNone fLow
    ⟨grayLo, []⟩ rfl).1 (by rw [stdOf_grayLo]; norm_num)
  rw [stdOf_grayLo] at h
  exact h

/-- C6 (counterexample): with `ratio_threshold` absent, a run whose single
frame is low-contrast completes normally — the configuration error is not
raised before tracking starts, and in this run it is never raised at all. -/
theorem missing_selector_key_counterexample :
    pNoRatioThr.ratio_threshold = none
    ∧ track pNoRatioThr roiFull [fLow] 1 = .ok [FrameRecord.failure 1 0] := by
  refine ⟨rfl, ?_⟩
  have hlc0 : stdOf grayLo < (1/2 : ℝ) := by
    rw [stdOf_grayLo]; norm_num
  have hp : processFrame pNoRatioThr (1/2) roiFull 1 ⟨none, none⟩ fLow
      = .ok (.failure 1 (stdOf grayLo), ⟨none, none⟩, false) :=
    processFrame_lowContrast ⟨grayLo, []⟩ rfl hlc0
  rw [stdOf_grayLo] at hp
  show trackLoop pNoRatioThr (1/2) roiFull 1 [fLow] 0 ⟨none, none⟩ []
      = .ok [FrameRecord.failure 1 0]
  exact trackLoop_one_ok hp

/-- C6 (amended): only the four options read at the top of `track`
(`perc_weight`, `perc_high`, `perc_low`, `contrast_threshold`) are fatal
before tracking starts: if any of them is absent the run fails with the
configuration error before any frame is read, whatever the frame stream; a
missing scorer option (such as `ratio_threshold` or `speed_threshold`) is
only raised when a frame first reaches candidate extraction, possibly never. -/
theorem missing_loop_option_fatal_before_start (p : Params) (roi : ROI)
    (frames : List FrameData) (n : ℕ) (h : missingLoop p) :
    track p roi frames n = .error .configError :=
  track_missingLoop p roi frames n h

/-- C6 (witness for the amended theorem). -/
theorem missing_loop_option_witness :
    track pNoWeight roiFull [] 0 = .error .configError := by
  apply missing_loop_option_fatal_before_start
  exact Or.inl rfl

/-- C8: a frame that decodes, passes the contrast check, and yields no
selected candidate produces the `{frame_id, frame_intensity}` failure record
and resets the persistent state to `{none, none}`; with that state every
candidate is scored with `dx = 0` and `dr/r = 0`, so criteria 6 and 7 hold
against any positive `speed_threshold` and `dr_threshold`. -/
theorem no_detection_resets_continuity (p : Params) (cl : ℝ) (roi : ROI) (frId : ℕ)
    (st : TrackState) (f : FrameData) (fr : FrameImage)
    (hd : f.decoded = some fr) (hlc : ¬ stdOf fr.gray < cl)
    (hg : get_pupil_from_contours p (subShape fr.gray roi) st.old_center st.old_r
      fr.contours = .ok none) :
    processFrame p cl roi frId st f = .ok (.failure frId (stdOf fr.gray), ⟨none, none⟩, true)
    ∧ (∀ (shape : ℕ × ℕ) (c : ContourData),
        Score.dx shape none none c = 0 ∧ Score.dr shape none none c = 0)
    ∧ (∀ (P : SelParams) (shape : ℕ × ℕ) (c : ContourData),
        (0 < P.speed_thres → Score.dx shape none none c < P.speed_thres)
        ∧ (0 < P.dr_thres → Score.dr shape none none c < P.dr_thres)) := by
  refine ⟨processFrame_noDetect fr hd hlc hg, ?_, ?_⟩
  · intro shape c
    constructor <;> simp [Score.dx, Score.dr, scoreOf]
  · intro P shape c
    constructor <;> intro hpos <;> simpa [Score.dx, Score.dr, scoreOf] using hpos

/-- C8 (witness): a concrete no-detection frame whose single contour is
scored but fails the criteria. -/
theorem no_detection_resets_witness :
    processFrame pFull (1/2) roiFull 1 stNone fBad
      = .ok (.failure 1 1, ⟨none, none⟩, true) := by
  have hlc : ¬ stdOf grayHi < (1/2 : ℝ) := by
    rw [stdOf_grayHi]; norm_num
  have hg : get_pupil_from_contours pFull (subShape grayHi roiFull) none none [cBad]
      = .ok none := gp_cBad _
  have h := (no_detection_resets_continuity pFull (1/2) roiFull 1 stNone fBad
    ⟨grayHi, [cBad]⟩ rfl hlc hg).1
  rw [stdOf_grayHi] at h
  exact h

/-- C9: whenever a run completes normally, the trace has exactly `no_frames`
records and the `frame_id` at index `i` is `i + 1`: ids are 1-based and
strictly increasing by 1, with exactly one record appended per frame
iteration on every path. -/
theorem trace_complete_and_ordered (p : Params) (roi : ROI)
    (frames : List FrameData) (n : ℕ) (tr : List FrameRecord)
    (hlen : frames.length = n) (h : track p roi frames n = .ok tr) :
    tr.length = frames.length ∧ tr.length = n
    ∧ ∀ i, i < n → (tr.get? i).map FrameRecord.frameId = some (i + 1) := by
  by_cases hl : missingLoop p
  · rw [track_missingLoop p roi frames n hl] at h
    cases h
  unfold missingLoop at hl
  push_neg at hl
  obtain ⟨n1, n2, n3, n4⟩ := hl
  obtain ⟨w, h1⟩ := Option.ne_none_iff_exists'.mp n1
  obtain ⟨vh, h2⟩ := Option.ne_none_iff_exists'.mp n2
  obtain ⟨vl, h3⟩ := Option.ne_none_iff_exists'.mp n3
  obtain ⟨cl, h4⟩ := Option.ne_none_iff_exists'.mp n4
  rw [track_eq, h1, h2, h3, h4] at h
  obtain ⟨ext, he, hle, hids⟩ := trackLoop_ok_trace p cl roi n frames 0 ⟨none, none⟩ [] tr h
  rw [List.nil_append] at he
  subst he
  refine ⟨by rw [hlen]; exact hle, hle, ?_⟩
  intro i hi
  have := hids i (by omega)
  simpa using this

/-- C9 (witness): a one-frame run. -/
theorem trace_complete_witness :
    track pFull roiFull [fLow] 1 = .ok [FrameRecord.failure 1 0]
    ∧ ([FrameRecord.failure 1 0] : List FrameRecord).length = 1
    ∧ (([FrameRecord.failure 1 0] : List FrameRecord).get? 0).map FrameRecord.frameId
        = some 1 := by
  have hlc0 : stdOf grayLo < (1/2 : ℝ) := by
    rw [stdOf_grayLo]; norm_num
  have hp : processFrame pFull (1/2) roiFull 1 ⟨none, none⟩ fLow
      = .ok (.failure 1 (stdOf grayLo), ⟨none, none⟩, false) :=
    processFrame_lowContrast ⟨grayLo, []⟩ rfl hlc0
  rw [stdOf_grayLo] at hp
  have he : track pFull roiFull [fLow] 1 = .ok [FrameRecord.failure 1 0] := by
    show trackLoop pFull (1/2) roiFull 1 [fLow] 0 ⟨none, none⟩ []
        = .ok [FrameRecord.failure 1 0]
    exact trackLoop_one_ok hp
  refine ⟨he, (trace_complete_and_ordered pFull roiFull [fLow] 1 _ rfl he).2.1, ?_⟩
  exact (trace_complete_and_ordered pFull roiFull [fLow] 1 _ rfl he).2.2 0 (by norm_num)

/-- C10: after a successful detection, the state stored for the next frame
is exactly the scorer's own normalization of the winning candidate: the
previous center is the ellipse center divided componentwise by
`shape[::-1] = (cols, rows)`, identical to the scorer's
`(x / shape[1], y / shape[0])`, and the previous radius is `max(axes)`,
identical to the scorer's `r`. -/
theorem detection_state_matches_scorer (p : Params) (cl : ℝ) (roi : ROI) (frId : ℕ)
    (st : TrackState) (f : FrameData) (fr : FrameImage) (c : ContourData)
    (hd : f.decoded = some fr) (hlc : ¬ stdOf fr.gray < cl)
    (hg : get_pupil_from_contours p (subShape fr.gray roi) st.old_center st.old_r
      fr.contours = .ok (some c)) :
    processFrame p cl roi frId st f
      = .ok (.success frId (stdOf fr.gray)
            ((roi.c0 : ℝ) + c.fit.x, (roi.r0 : ℝ) + c.fit.y) (max c.fit.ax0 c.fit.ax1) c,
          ⟨some (Score.cx (subShape fr.gray roi) st.old_center st.old_r c,
                 Score.cy (subShape fr.gray roi) st.old_center st.old_r c),
           some (Score.rad (subShape fr.gray roi) st.old_center st.old_r c)⟩, true) := by
  rw [processFrame_detect fr hd hlc hg]
  simp [Score.cx, Score.cy, Score.rad, scoreOf, shapeRev]

/-- C10 (witness): the concrete detection frame; the stored state is the
normalized center `(1/2, 1/2)` and major radius `2`. -/
theorem detection_state_witness :
    processFrame pFull (1/2) roiFull 1 stNone fDetect
      = .ok (.success 1 1 (1, 1) 2 cCirc, ⟨some (1/2, 1/2), some 2⟩, true) := by
  have hlc : ¬ stdOf grayHi < (1/2 : ℝ) := by
    rw [stdOf_grayHi]; norm_num
  have hshape : subShape grayHi roiFull = (2, 2) := rfl
  have hg : get_pupil_from_contours pFull (subShape grayHi roiFull) none none [cCirc]
      = .ok (some cCirc) := by
    rw [hshape]
    exact gp_circ
  have h := detection_state_matches_scorer pFull (1/2) roiFull 1 stNone fDetect
    ⟨grayHi, [cCirc]⟩ cCirc rfl hlc hg
  rw [h, stdOf_grayHi, hshape]
  norm_num [Score.cx, Score.cy, Score.rad, scoreOf, cCirc, fitCirc, roiFull, max_self]

/-- C7 (witness): four points on the boundary of a diameter-2 circle at
`(1,1)` give goodness-of-fit `0`. -/
theorem goodness_of_fit_witness :
    fitCirc.ax0 ≠ 0 ∧ goodness_of_fit ptsCirc fitCirc = 0 := by
  have h0 : fitCirc.ax0 ≠ 0 := by norm_num [fitCirc]
  have h1 : fitCirc.ax1 ≠ 0 := by norm_num [fitCirc]
  have hb : ∀ q ∈ ptsCirc, onEllipseBoundary q fitCirc := by
    intro q hq
    simp only [ptsCirc, List.mem_cons, List.not_mem_nil, or_false] at hq
    rcases hq with rfl | rfl | rfl | rfl <;>
      norm_num [onEllipseBoundary, fitCirc, Real.cos_zero, Real.sin_zero]
  exact ⟨h0, (goodness_of_fit_is_rms_implicit ptsCirc fitCirc h0 h1).2 hb⟩

end EyeTracking
